import Mathlib

/-!
Verification of the gesture-detection notebook (`gesture_train_model.ipynb`).

The notebook's data-preparation cell and its live-classifier helper
`calc_landmark_list` are embedded as pure functions over `ℚ`.  A landmark is
an (x, y, z) triple; a sample is the list of the 21 landmarks of one hand.
NumPy float arithmetic is modelled by exact rational arithmetic; a division
is additionally modelled in a checked variant that returns `none` when the
divisor is zero, mirroring the fact that the source performs the division
unconditionally (it has no guard on a degenerate bounding box).
-/

/-- A hand landmark: an (x, y, z) coordinate triple. -/
abbrev Landmark : Type := ℚ × ℚ × ℚ

/-- Maximum of a list of rationals, as `np.max` computes it on a nonempty
array: fold of the binary max over the elements (0 as junk value on the
empty array, on which `np.max` is an error; all samples have 21 entries). -/
def listMax : List ℚ → ℚ
  | [] => 0
  | v :: vs => vs.foldl max v

/-- Minimum of a list of rationals, as `np.min` computes it. -/
def listMin : List ℚ → ℚ
  | [] => 0
  | v :: vs => vs.foldl min v

/-- The x column of a sample, `sample[:,0]`. -/
def xs (s : List Landmark) : List ℚ := s.map (fun p => p.1)

/-- The y column of a sample, `sample[:,1]`. -/
def ys (s : List Landmark) : List ℚ := s.map (fun p => p.2.1)

/-- The z column of a sample, `sample[:,2]`. -/
def zs (s : List Landmark) : List ℚ := s.map (fun p => p.2.2)

/-- Per-sample `x_max = np.max(sample[:,0])` of the data-preparation cell. -/
def x_max (s : List Landmark) : ℚ := listMax (xs s)

/-- Per-sample `x_min = np.min(sample[:,0])` of the data-preparation cell. -/
def x_min (s : List Landmark) : ℚ := listMin (xs s)

/-- Per-sample `y_max = np.max(sample[:,1])` of the data-preparation cell. -/
def y_max (s : List Landmark) : ℚ := listMax (ys s)

/-- Per-sample `y_min = np.min(sample[:,1])` of the data-preparation cell. -/
def y_min (s : List Landmark) : ℚ := listMin (ys s)

/-- `x_diff = x_max - x_min` of the data-preparation cell. -/
def x_diff (s : List Landmark) : ℚ := x_max s - x_min s

/-- `y_diff = y_max - y_min` of the data-preparation cell. -/
def y_diff (s : List Landmark) : ℚ := y_max s - y_min s

/-- The in-place column updates of the data-preparation cell:
`hand_samples[ix][:,0] = (hand_samples[ix][:,0] - x_min)/x_diff` and the
analogous update of column 1; column 2 (the z column) is not assigned. -/
def normalize_sample (s : List Landmark) : List Landmark :=
  s.map (fun p => ((p.1 - x_min s) / x_diff s, (p.2.1 - y_min s) / y_diff s, p.2.2))

/-- `hand_samples.reshape(hand_samples.shape[0], 63)` row-major flattening of
one sample's 21 landmark triples into 63 scalars. -/
def flatten_sample (s : List Landmark) : List ℚ :=
  s.flatMap (fun p => [p.1, p.2.1, p.2.2])

/-- One row of `x = np.concatenate((handedness, hand_samples), axis = 1)`:
the handedness flag followed by the 63 flattened normalized coordinates.
This is the feature vector the data-preparation cell builds per sample. -/
def train_feature (handedness : ℚ) (s : List Landmark) : List ℚ :=
  handedness :: flatten_sample (normalize_sample s)

/-- Checked division: `none` when the divisor is zero.  The source divides
unconditionally, so a zero divisor is an unhandled failure that propagates. -/
def div? (a b : ℚ) : Option ℚ := if b = 0 then none else some (a / b)

/-- Checked normalization of one landmark of a sample: fails when the
sample's bounding box is degenerate in x or in y. -/
def normalize_landmark? (s : List Landmark) (p : Landmark) : Option Landmark := do
  let nx ← div? (p.1 - x_min s) (x_diff s)
  let ny ← div? (p.2.1 - y_min s) (y_diff s)
  pure (nx, ny, p.2.2)

/-- Checked variant of `normalize_sample`: `none` exactly when a division by
zero occurs while normalizing the sample. -/
def normalize_sample? (s : List Landmark) : Option (List Landmark) :=
  s.mapM (normalize_landmark? s)

/-- Checked variant of `train_feature`: the failure of a degenerate bounding
box propagates uncaught to the produced feature vector. -/
def train_feature? (handedness : ℚ) (s : List Landmark) : Option (List ℚ) :=
  (normalize_sample? s).map (fun ns => handedness :: flatten_sample ns)

/-- Componentwise binary maximum of two landmark triples. -/
def tripleMaxStep (a b : Landmark) : Landmark :=
  (max a.1 b.1, max a.2.1 b.2.1, max a.2.2 b.2.2)

/-- Componentwise binary minimum of two landmark triples. -/
def tripleMinStep (a b : Landmark) : Landmark :=
  (min a.1 b.1, min a.2.1 b.2.1, min a.2.2 b.2.2)

/-- Componentwise maximum of the landmark triples,
`landmark_point_list.max(axis = 0)` of `calc_landmark_list`. -/
def tripleMax : List Landmark → Landmark
  | [] => (0, 0, 0)
  | v :: vs => vs.foldl tripleMaxStep v

/-- Componentwise minimum of the landmark triples,
`landmark_point_list.min(axis = 0)` of `calc_landmark_list`. -/
def tripleMin : List Landmark → Landmark
  | [] => (0, 0, 0)
  | v :: vs => vs.foldl tripleMinStep v

/-- The live classifier's `calc_landmark_list(handedness, landmarks)`: it
collects the (x, y, z) triples, takes the componentwise max and min over
axis 0, picks the x and y components of those, rescales columns 0 and 1 by
the respective diff, reshapes to 63 scalars, and inserts the handedness flag
at position 0. -/
def calc_landmark_list (handedness : ℚ) (landmarks : List Landmark) : List ℚ :=
  let landmark_point_list := landmarks
  let max_val := tripleMax landmark_point_list
  let min_val := tripleMin landmark_point_list
  let xM := max_val.1
  let xm := min_val.1
  let yM := max_val.2.1
  let ym := min_val.2.1
  let xd := xM - xm
  let yd := yM - ym
  let rescaled := landmark_point_list.map
    (fun p => ((p.1 - xm) / xd, (p.2.1 - ym) / yd, p.2.2))
  handedness :: flatten_sample rescaled

/-- One row of `np_utils.to_categorical`: a length-`n` one-hot vector with
the single 1 at index `k`. -/
def to_categorical_row (n k : ℕ) : List ℚ :=
  (List.range n).map (fun j => if j = k then 1 else 0)

/-- Maximum of a list of naturals (0 on the empty list). -/
def listMaxNat : List ℕ → ℕ
  | [] => 0
  | v :: vs => vs.foldl max v

/-- `y = np_utils.to_categorical(labels)`: one-hot encodes every label, with
the default number of columns `max(labels) + 1`. -/
def to_categorical (labels : List ℕ) : List (List ℚ) :=
  labels.map (to_categorical_row (listMaxNat labels + 1))

/-- `np.argmax` auxiliary recursion carrying the best value seen, the index
of the next element and the index of the best value; a later value replaces
the best only when strictly larger, so ties keep the first occurrence. -/
def argmaxAux : List ℚ → ℚ → ℕ → ℕ → ℕ
  | [], _, _, bi => bi
  | v :: vs, best, i, bi =>
      if best < v then argmaxAux vs v (i + 1) i else argmaxAux vs best (i + 1) bi

/-- `np.argmax` over a list: index of the first occurrence of the maximum
value (0 on the empty list, on which `np.argmax` is an error; model outputs
always have 6 entries). -/
def argmax : List ℚ → ℕ
  | [] => 0
  | v :: vs => argmaxAux vs v 1 0

/-- `class_names = ["one", "two", "three", "four", "five", "other"]`. -/
def class_names : List String := ["one", "two", "three", "four", "five", "other"]

/-- Default string used when reading `class_names` out of range. -/
def no_label : String := ""

/-- The overlay decision of one iteration of the live-classifier loop in
which landmarks were found: the label `class_names[np.argmax(result)]` is
drawn onto the frame when `np.argmax(result) < 5`, nothing otherwise. -/
def overlay_label (result : List ℚ) : Option String :=
  if argmax result < 5 then some (class_names.getD (argmax result) no_label) else none

/-- Feature vector read from the specification's words, for comparison with
the code: the handedness flag followed by the 21 normalized (x, y) pairs
flattened, the z components dropped. -/
def spec_feature_xy (handedness : ℚ) (s : List Landmark) : List ℚ :=
  handedness :: (normalize_sample s).flatMap (fun p => [p.1, p.2.1])

/-- Uniform positive rescaling and translation of the raw (x, y, z)
coordinates of a sample. -/
def transform_all (a b1 b2 b3 : ℚ) (s : List Landmark) : List Landmark :=
  s.map (fun p => (a * p.1 + b1, a * p.2.1 + b2, a * p.2.2 + b3))

/-- Uniform positive rescaling and translation of the x and y coordinates of
a sample, the z coordinates left unchanged. -/
def transform_xy (a b1 b2 : ℚ) (s : List Landmark) : List Landmark :=
  s.map (fun p => (a * p.1 + b1, a * p.2.1 + b2, p.2.2))

/-- A concrete 21-landmark sample used as test input: its x values range
over {0.2, 0.4, 0.6} and its y values over {0.1, 0.5, 0.9}, with varied
nonzero z values. -/
def sample_ex : List Landmark :=
  [(0.2, 0.1, 0.5), (0.4, 0.5, 0.7), (0.6, 0.9, 0.2),
   (0.2, 0.5, 0.3), (0.4, 0.9, 0.6), (0.6, 0.1, 0.8),
   (0.2, 0.9, 0.4), (0.4, 0.1, 0.9), (0.6, 0.5, 0.1),
   (0.2, 0.1, 0.6), (0.4, 0.5, 0.2), (0.6, 0.9, 0.7),
   (0.2, 0.5, 0.5), (0.4, 0.9, 0.3), (0.6, 0.1, 0.4),
   (0.2, 0.9, 0.8), (0.4, 0.1, 0.2), (0.6, 0.5, 0.9),
   (0.2, 0.1, 0.1), (0.4, 0.5, 0.6), (0.6, 0.9, 0.35)]

/-- A degenerate 21-landmark sample whose coordinates are all identical. -/
def sample_degenerate : List Landmark :=
  List.replicate 21 ((0.3 : ℚ), (0.3 : ℚ), (0.3 : ℚ))

/-! ### Helper lemmas on folds of max and min -/

lemma foldl_max_init_le {α : Type} [LinearOrder α] (l : List α) :
    ∀ init : α, init ≤ l.foldl max init := by
  induction l with
  | nil => intro init; simp
  | cons a t ih =>
      intro init
      exact le_trans (le_max_left init a) (ih (max init a))

lemma foldl_max_le_of_mem {α : Type} [LinearOrder α] (a : α) (l : List α) :
    a ∈ l → ∀ init : α, a ≤ l.foldl max init := by
  induction l with
  | nil => intro h; cases h
  | cons b t ih =>
      intro h init
      rcases List.mem_cons.mp h with rfl | hmem
      · exact le_trans (le_max_right init a) (foldl_max_init_le t (max init a))
      · exact ih hmem (max init b)

lemma foldl_max_mem_or {α : Type} [LinearOrder α] (l : List α) :
    ∀ init : α, l.foldl max init ∈ l ∨ l.foldl max init = init := by
  induction l with
  | nil => intro init; right; rfl
  | cons b t ih =>
      intro init
      rcases ih (max init b) with hm | he
      · left; exact List.mem_cons_of_mem b hm
      · rcases max_choice init b with h1 | h1
        · right; rw [List.foldl_cons, he, h1]
        · left; rw [List.foldl_cons, he, h1]; exact List.mem_cons_self b t

lemma foldl_max_map_mono (f : ℚ → ℚ) (hf : Monotone f) (l : List ℚ) :
    ∀ init : ℚ, (l.map f).foldl max (f init) = f (l.foldl max init) := by
  induction l with
  | nil => intro init; rfl
  | cons b t ih =>
      intro init
      simp only [List.map_cons, List.foldl_cons]
      rw [← hf.map_max, ih (max init b)]

lemma foldl_min_init_le {α : Type} [LinearOrder α] (l : List α) :
    ∀ init : α, l.foldl min init ≤ init := by
  induction l with
  | nil => intro init; simp
  | cons a t ih =>
      intro init
      exact le_trans (ih (min init a)) (min_le_left init a)

lemma foldl_min_le_of_mem {α : Type} [LinearOrder α] (a : α) (l : List α) :
    a ∈ l → ∀ init : α, l.foldl min init ≤ a := by
  induction l with
  | nil => intro h; cases h
  | cons b t ih =>
      intro h init
      rcases List.mem_cons.mp h with rfl | hmem
      · exact le_trans (foldl_min_init_le t (min init a)) (min_le_right init a)
      · exact ih hmem (min init b)

lemma foldl_min_mem_or {α : Type} [LinearOrder α] (l : List α) :
    ∀ init : α, l.foldl min init ∈ l ∨ l.foldl min init = init := by
  induction l with
  | nil => intro init; right; rfl
  | cons b t ih =>
      intro init
      rcases ih (min init b) with hm | he
      · left; exact List.mem_cons_of_mem b hm
      · rcases min_choice init b with h1 | h1
        · right; rw [List.foldl_cons, he, h1]
        · left; rw [List.foldl_cons, he, h1]; exact List.mem_cons_self b t

lemma foldl_min_map_mono (f : ℚ → ℚ) (hf : Monotone f) (l : List ℚ) :
    ∀ init : ℚ, (l.map f).foldl min (f init) = f (l.foldl min init) := by
  induction l with
  | nil => intro init; rfl
  | cons b t ih =>
      intro init
      simp only [List.map_cons, List.foldl_cons]
      rw [← hf.map_min, ih (min init b)]

/-! ### Helper lemmas on `listMax`, `listMin`, `listMaxNat` -/

lemma le_listMax (a : ℚ) (l : List ℚ) (h : a ∈ l) : a ≤ listMax l := by
  cases l with
  | nil => cases h
  | cons v vs =>
      rcases List.mem_cons.mp h with rfl | hmem
      · exact foldl_max_init_le vs a
      · exact foldl_max_le_of_mem a vs hmem v

lemma listMin_le (a : ℚ) (l : List ℚ) (h : a ∈ l) : listMin l ≤ a := by
  cases l with
  | nil => cases h
  | cons v vs =>
      rcases List.mem_cons.mp h with rfl | hmem
      · exact foldl_min_init_le vs a
      · exact foldl_min_le_of_mem a vs hmem v

lemma listMax_mem (l : List ℚ) (h : l ≠ []) : listMax l ∈ l := by
  cases l with
  | nil => exact absurd rfl h
  | cons v vs =>
      rcases foldl_max_mem_or vs v with hm | he
      · exact List.mem_cons_of_mem v hm
      · rw [listMax, he]; exact List.mem_cons_self v vs

lemma listMin_mem (l : List ℚ) (h : l ≠ []) : listMin l ∈ l := by
  cases l with
  | nil => exact absurd rfl h
  | cons v vs =>
      rcases foldl_min_mem_or vs v with hm | he
      · exact List.mem_cons_of_mem v hm
      · rw [listMin, he]; exact List.mem_cons_self v vs

lemma listMax_map_mono (f : ℚ → ℚ) (hf : Monotone f) (l : List ℚ) (h : l ≠ []) :
    listMax (l.map f) = f (listMax l) := by
  cases l with
  | nil => exact absurd rfl h
  | cons v vs => exact foldl_max_map_mono f hf vs v

lemma listMin_map_mono (f : ℚ → ℚ) (hf : Monotone f) (l : List ℚ) (h : l ≠ []) :
    listMin (l.map f) = f (listMin l) := by
  cases l with
  | nil => exact absurd rfl h
  | cons v vs => exact foldl_min_map_mono f hf vs v

lemma le_listMaxNat (a : ℕ) (l : List ℕ) (h : a ∈ l) : a ≤ listMaxNat l := by
  cases l with
  | nil => cases h
  | cons v vs =>
      rcases List.mem_cons.mp h with rfl | hmem
      · exact foldl_max_init_le vs a
      · exact foldl_max_le_of_mem a vs hmem v

/-! ### Helper lemmas on flattening -/

lemma flatten_sample_length (s : List Landmark) :
    (flatten_sample s).length = 3 * s.length := by
  induction s with
  | nil => rfl
  | cons p t ih =>
      simp only [flatten_sample, List.flatMap_cons, List.length_append,
        List.length_cons, List.length_nil] at ih ⊢
      omega

lemma flatMap_three_getElem? (f : Landmark → List ℚ) (hf : ∀ p, (f p).length = 3)
    (l : List Landmark) : ∀ (i j : ℕ), j < 3 →
    (l.flatMap f)[3 * i + j]? = (l[i]?).bind (fun p => (f p)[j]?) := by
  induction l with
  | nil => intro i j hj; simp
  | cons p t ih =>
      intro i j hj
      cases i with
      | zero =>
          have h0 : 3 * 0 + j = j := by omega
          simp only [List.flatMap_cons, h0]
          rw [List.getElem?_append_left (by rw [hf p]; omega)]
          simp
      | succ i =>
          simp only [List.flatMap_cons]
          rw [List.getElem?_append_right (by rw [hf p]; omega)]
          rw [hf p]
          have h1 : 3 * (i + 1) + j - 3 = 3 * i + j := by omega
          rw [h1, ih i j hj]
          simp

/-! ### Componentwise folds of `calc_landmark_list` agree with the column
folds of the training cell -/

lemma foldl_tripleMaxStep_fst (l : List Landmark) :
    ∀ init : Landmark, (l.foldl tripleMaxStep init).1 =
      (l.map (fun p => p.1)).foldl max init.1 := by
  induction l with
  | nil => intro init; rfl
  | cons p t ih =>
      intro init
      simp only [List.foldl_cons, List.map_cons]
      exact ih (tripleMaxStep init p)

lemma foldl_tripleMaxStep_snd_fst (l : List Landmark) :
    ∀ init : Landmark, (l.foldl tripleMaxStep init).2.1 =
      (l.map (fun p => p.2.1)).foldl max init.2.1 := by
  induction l with
  | nil => intro init; rfl
  | cons p t ih =>
      intro init
      simp only [List.foldl_cons, List.map_cons]
      exact ih (tripleMaxStep init p)

lemma foldl_tripleMinStep_fst (l : List Landmark) :
    ∀ init : Landmark, (l.foldl tripleMinStep init).1 =
      (l.map (fun p => p.1)).foldl min init.1 := by
  induction l with
  | nil => intro init; rfl
  | cons p t ih =>
      intro init
      simp only [List.foldl_cons, List.map_cons]
      exact ih (tripleMinStep init p)

lemma foldl_tripleMinStep_snd_fst (l : List Landmark) :
    ∀ init : Landmark, (l.foldl tripleMinStep init).2.1 =
      (l.map (fun p => p.2.1)).foldl min init.2.1 := by
  induction l with
  | nil => intro init; rfl
  | cons p t ih =>
      intro init
      simp only [List.foldl_cons, List.map_cons]
      exact ih (tripleMinStep init p)

lemma tripleMax_fst (l : List Landmark) (h : l ≠ []) :
    (tripleMax l).1 = x_max l := by
  cases l with
  | nil => exact absurd rfl h
  | cons v vs =>
      simp only [tripleMax, x_max, xs, listMax, List.map_cons]
      exact foldl_tripleMaxStep_fst vs v

lemma tripleMax_snd_fst (l : List Landmark) (h : l ≠ []) :
    (tripleMax l).2.1 = y_max l := by
  cases l with
  | nil => exact absurd rfl h
  | cons v vs =>
      simp only [tripleMax, y_max, ys, listMax, List.map_cons]
      exact foldl_tripleMaxStep_snd_fst vs v

lemma tripleMin_fst (l : List Landmark) (h : l ≠ []) :
    (tripleMin l).1 = x_min l := by
  cases l with
  | nil => exact absurd rfl h
  | cons v vs =>
      simp only [tripleMin, x_min, xs, listMin, List.map_cons]
      exact foldl_tripleMinStep_fst vs v

lemma tripleMin_snd_fst (l : List Landmark) (h : l ≠ []) :
    (tripleMin l).2.1 = y_min l := by
  cases l with
  | nil => exact absurd rfl h
  | cons v vs =>
      simp only [tripleMin, y_min, ys, listMin, List.map_cons]
      exact foldl_tripleMinStep_snd_fst vs v

/-- The live classifier's normalization coincides with the training cell's:
both rescale column 0 by the x bounding box, column 1 by the y bounding box,
copy column 2, flatten to 63 scalars and prepend the handedness flag. -/
lemma calc_landmark_list_eq_train_feature (h : ℚ) (s : List Landmark) :
    calc_landmark_list h s = train_feature h s := by
  cases s with
  | nil => rfl
  | cons p t =>
      have hne : (p :: t : List Landmark) ≠ [] := by simp
      simp only [calc_landmark_list, train_feature, normalize_sample,
        tripleMax_fst _ hne, tripleMax_snd_fst _ hne,
        tripleMin_fst _ hne, tripleMin_snd_fst _ hne, x_diff, y_diff]

/-! ### Helper lemmas on one-hot rows and `argmax` -/

lemma map_zero_fn (m : ℕ) (g : ℕ → ℚ) (hg : ∀ j, g j = 0) :
    (List.range m).map g = List.replicate m 0 := by
  induction m with
  | zero => rfl
  | succ m ih =>
      rw [List.range_succ, List.map_append, ih, List.replicate_succ']
      simp [hg]

lemma to_categorical_row_eq (k : ℕ) : ∀ n : ℕ, k < n →
    to_categorical_row n k =
      List.replicate k (0 : ℚ) ++ 1 :: List.replicate (n - k - 1) (0 : ℚ) := by
  induction k with
  | zero =>
      intro n hk
      cases n with
      | zero => omega
      | succ m =>
          have h2 : ∀ j : ℕ, ((fun j => if j = 0 then (1 : ℚ) else 0) ∘ Nat.succ) j = 0 := by
            intro j; simp [Function.comp]
          have h3 : m + 1 - 0 - 1 = m := by omega
          simp only [to_categorical_row, List.range_succ_eq_map, List.map_cons,
            List.map_map, List.replicate_zero, List.nil_append, h3]
          rw [map_zero_fn m _ h2]
          simp
  | succ k ih =>
      intro n hk
      cases n with
      | zero => omega
      | succ m =>
          have hkm : k < m := by omega
          have hfun : ((fun j => if j = k + 1 then (1 : ℚ) else 0) ∘ Nat.succ) =
              (fun j => if j = k then (1 : ℚ) else 0) := by
            funext j
            simp [Function.comp, Nat.succ_inj]
          have hrw := ih m hkm
          simp only [to_categorical_row] at hrw
          have h4 : m + 1 - (k + 1) - 1 = m - k - 1 := by omega
          simp only [to_categorical_row, List.range_succ_eq_map, List.map_cons,
            List.map_map, List.replicate_succ, List.cons_append, h4, hfun, hrw]
          simp

lemma argmaxAux_replicate_zero (m : ℕ) (best : ℚ) (hbest : 0 ≤ best) :
    ∀ i bi : ℕ, argmaxAux (List.replicate m 0) best i bi = bi := by
  induction m with
  | zero => intro i bi; rfl
  | succ m ih =>
      intro i bi
      simp only [List.replicate_succ, argmaxAux]
      rw [if_neg (not_lt.mpr hbest)]
      exact ih (i + 1) bi

lemma argmaxAux_zeros_then_one (m : ℕ) : ∀ j i bi : ℕ,
    argmaxAux (List.replicate j (0 : ℚ) ++ 1 :: List.replicate m 0) 0 i bi = i + j := by
  intro j
  induction j with
  | zero =>
      intro i bi
      simp only [List.replicate, List.nil_append, argmaxAux]
      rw [if_pos (by norm_num : (0 : ℚ) < 1)]
      rw [argmaxAux_replicate_zero m 1 (by norm_num) (i + 1) i]
      omega
  | succ j ih =>
      intro i bi
      rw [List.replicate_succ, List.cons_append]
      simp only [argmaxAux]
      rw [if_neg (lt_irrefl (0 : ℚ))]
      rw [ih (i + 1) bi]
      omega

lemma argmax_one_hot (n k : ℕ) (hk : k < n) : argmax (to_categorical_row n k) = k := by
  rw [to_categorical_row_eq k n hk]
  cases k with
  | zero =>
      simp only [List.replicate, List.nil_append, argmax]
      exact argmaxAux_replicate_zero _ 1 (by norm_num) 1 0
  | succ k =>
      simp only [List.replicate_succ, List.cons_append, argmax]
      rw [argmaxAux_zeros_then_one _ k 1 0]
      omega

/-! ### Helper lemmas on the feature vector's shape -/

lemma train_feature_length_aux (h : ℚ) (s : List Landmark) (hlen : s.length = 21) :
    (train_feature h s).length = 64 := by
  have h1 : (normalize_sample s).length = 21 := by
    simp [normalize_sample, hlen]
  rw [train_feature, List.length_cons, flatten_sample_length, h1]

lemma train_feature_getElem (h : ℚ) (s : List Landmark) (i j : ℕ) (hj : j < 3) :
    (train_feature h s)[3 * i + j + 1]? =
      (s[i]?).bind (fun p =>
        [(p.1 - x_min s) / x_diff s, (p.2.1 - y_min s) / y_diff s, p.2.2][j]?) := by
  rw [train_feature, List.getElem?_cons_succ, flatten_sample,
    flatMap_three_getElem? (fun p => [p.1, p.2.1, p.2.2]) (fun p => rfl)
      (normalize_sample s) i j hj,
    normalize_sample, List.getElem?_map]
  cases s[i]? with
  | none => rfl
  | some p => rfl

/-- Normalizing a nonempty, not-all-equal column by its own min and max
pins the resulting minimum to 0 and maximum to 1. -/
lemma normalized_column_bounds (l : List ℚ) (hne : l ≠ [])
    (hneq : ¬ ∀ v ∈ l, ∀ w ∈ l, v = w) (m M d : ℚ)
    (hm : m = listMin l) (hM : M = listMax l) (hd : d = M - m) :
    listMin (l.map (fun v => (v - m) / d)) = 0 ∧
      listMax (l.map (fun v => (v - m) / d)) = 1 := by
  subst hm
  subst hM
  subst hd
  push_neg at hneq
  obtain ⟨a, ha, b, hb, hab⟩ := hneq
  have hmin_le_a := listMin_le a l ha
  have hmin_le_b := listMin_le b l hb
  have ha_le_max := le_listMax a l ha
  have hb_le_max := le_listMax b l hb
  have hlt : listMin l < listMax l := by
    rcases lt_or_gt_of_ne hab with hcase | hcase
    · exact lt_of_le_of_lt hmin_le_a (lt_of_lt_of_le hcase hb_le_max)
    · exact lt_of_le_of_lt hmin_le_b (lt_of_lt_of_le hcase ha_le_max)
  have hdpos : 0 < listMax l - listMin l := by linarith
  have hmono : Monotone (fun v : ℚ => (v - listMin l) / (listMax l - listMin l)) := by
    intro u v huv
    have hle : u - listMin l ≤ v - listMin l := by linarith
    exact (div_le_div_iff_of_pos_right hdpos).mpr hle
  constructor
  · rw [listMin_map_mono _ hmono _ hne]
    simp
  · rw [listMax_map_mono _ hmono _ hne]
    exact div_self (ne_of_gt hdpos)

/-- Affine maps with nonnegative slope are monotone. -/
lemma affine_monotone (a b : ℚ) (ha : 0 ≤ a) : Monotone (fun v : ℚ => a * v + b) := by
  intro u v huv
  exact add_le_add_right (mul_le_mul_of_nonneg_left huv ha) b

/-! ### Claims -/

/-- Claim C2: for every 21-landmark sample whose x values are not all equal
and whose y values are not all equal, the normalizer computes the per-sample
minimum and maximum of the x coordinates and of the y coordinates
independently (characterized here as the least and greatest members of each
column) and replaces each x by (x − x_min)/(x_max − x_min) and each y by
(y − y_min)/(y_max − y_min). -/
theorem normalize_sample_minmax_rescale (s : List Landmark) (hlen : s.length = 21)
    (xm xM ym yM : ℚ)
    (hxm_mem : xm ∈ xs s) (hxm_le : ∀ v ∈ xs s, xm ≤ v)
    (hxM_mem : xM ∈ xs s) (hxM_ge : ∀ v ∈ xs s, v ≤ xM)
    (hym_mem : ym ∈ ys s) (hym_le : ∀ v ∈ ys s, ym ≤ v)
    (hyM_mem : yM ∈ ys s) (hyM_ge : ∀ v ∈ ys s, v ≤ yM)
    (_hxne : xm ≠ xM) (_hyne : ym ≠ yM) :
    normalize_sample s =
      s.map (fun p => ((p.1 - xm) / (xM - xm), (p.2.1 - ym) / (yM - ym), p.2.2)) := by
  have hsne : s ≠ [] := by intro h0; rw [h0] at hlen; simp at hlen
  have hxsne : xs s ≠ [] := by simp [xs, hsne]
  have hysne : ys s ≠ [] := by simp [ys, hsne]
  have h1 : x_min s = xm :=
    le_antisymm (listMin_le _ _ hxm_mem) (hxm_le _ (listMin_mem _ hxsne))
  have h2 : x_max s = xM :=
    le_antisymm (hxM_ge _ (listMax_mem _ hxsne)) (le_listMax _ _ hxM_mem)
  have h3 : y_min s = ym :=
    le_antisymm (listMin_le _ _ hym_mem) (hym_le _ (listMin_mem _ hysne))
  have h4 : y_max s = yM :=
    le_antisymm (hyM_ge _ (listMax_mem _ hysne)) (le_listMax _ _ hyM_mem)
  rw [normalize_sample]
  simp only [x_diff, y_diff, h1, h2, h3, h4]

/-- Claim C2, concrete instance: the normalization of `sample_ex`, whose x
values are {0.2, 0.4, 0.6} and y values are {0.1, 0.5, 0.9}, rescales by the
column bounding boxes; in particular the normalized x column is
{0, 1/2, 1}. -/
theorem normalize_sample_minmax_rescale_witness :
    (normalize_sample sample_ex =
      sample_ex.map (fun p =>
        ((p.1 - 0.2) / (0.6 - 0.2), (p.2.1 - 0.1) / (0.9 - 0.1), p.2.2))) ∧
    xs (normalize_sample sample_ex) =
      [0, 1/2, 1, 0, 1/2, 1, 0, 1/2, 1, 0, 1/2, 1, 0, 1/2, 1, 0, 1/2, 1, 0, 1/2, 1] :=
  ⟨normalize_sample_minmax_rescale sample_ex (by decide) 0.2 0.6 0.1 0.9
    (by simp [xs, sample_ex])
    (by intro v hv
        simp only [xs, sample_ex, List.map_cons, List.map_nil] at hv
        fin_cases hv <;> norm_num)
    (by simp [xs, sample_ex])
    (by intro v hv
        simp only [xs, sample_ex, List.map_cons, List.map_nil] at hv
        fin_cases hv <;> norm_num)
    (by simp [ys, sample_ex])
    (by intro v hv
        simp only [ys, sample_ex, List.map_cons, List.map_nil] at hv
        fin_cases hv <;> norm_num)
    (by simp [ys, sample_ex])
    (by intro v hv
        simp only [ys, sample_ex, List.map_cons, List.map_nil] at hv
        fin_cases hv <;> norm_num)
    (by norm_num) (by norm_num),
   by norm_num [xs, normalize_sample, sample_ex, x_min, x_max, y_min, y_max,
     x_diff, y_diff, listMin, listMax, min_def, max_def]⟩

/-- Claim C3: for every valid 21-landmark sample whose x values are not all
equal and whose y values are not all equal, after normalization the minimum
of the 21 x components is 0 and their maximum is 1, and analogously for the
y components. -/
theorem normalize_sample_bounds (s : List Landmark) (hlen : s.length = 21)
    (hx : ¬ ∀ v ∈ xs s, ∀ w ∈ xs s, v = w)
    (hy : ¬ ∀ v ∈ ys s, ∀ w ∈ ys s, v = w) :
    listMin (xs (normalize_sample s)) = 0 ∧ listMax (xs (normalize_sample s)) = 1 ∧
      listMin (ys (normalize_sample s)) = 0 ∧ listMax (ys (normalize_sample s)) = 1 := by
  have hsne : s ≠ [] := by intro h0; rw [h0] at hlen; simp at hlen
  have hxsne : xs s ≠ [] := by simp [xs, hsne]
  have hysne : ys s ≠ [] := by simp [ys, hsne]
  have hxmap : xs (normalize_sample s) =
      (xs s).map (fun v => (v - x_min s) / x_diff s) := by
    simp only [xs, normalize_sample, List.map_map]
    rfl
  have hymap : ys (normalize_sample s) =
      (ys s).map (fun v => (v - y_min s) / y_diff s) := by
    simp only [ys, normalize_sample, List.map_map]
    rfl
  obtain ⟨hx0, hx1⟩ :=
    normalized_column_bounds (xs s) hxsne hx (x_min s) (x_max s) (x_diff s) rfl rfl rfl
  obtain ⟨hy0, hy1⟩ :=
    normalized_column_bounds (ys s) hysne hy (y_min s) (y_max s) (y_diff s) rfl rfl rfl
  exact ⟨by rw [hxmap]; exact hx0, by rw [hxmap]; exact hx1,
    by rw [hymap]; exact hy0, by rw [hymap]; exact hy1⟩

/-- Claim C3, concrete instance at `sample_ex`. -/
theorem normalize_sample_bounds_witness :
    listMin (xs (normalize_sample sample_ex)) = 0 ∧
      listMax (xs (normalize_sample sample_ex)) = 1 ∧
      listMin (ys (normalize_sample sample_ex)) = 0 ∧
      listMax (ys (normalize_sample sample_ex)) = 1 :=
  normalize_sample_bounds sample_ex (by decide)
    (fun hall => by
      have h1 := hall 0.2 (by simp [xs, sample_ex]) 0.4 (by simp [xs, sample_ex])
      norm_num at h1)
    (fun hall => by
      have h1 := hall 0.1 (by simp [ys, sample_ex]) 0.5 (by simp [ys, sample_ex])
      norm_num at h1)

/-- Claim C4: for a degenerate sample whose 21 x coordinates are all
identical, the divisor `x_diff` is 0 and the normalization divides by it
unguarded, so the failure propagates uncaught through the checked pipeline:
the feature-vector computation yields no result. -/
theorem degenerate_sample_division_by_zero (h c : ℚ) (s : List Landmark)
    (hlen : s.length = 21) (hx : ∀ p ∈ s, p.1 = c) :
    x_diff s = 0 ∧ train_feature? h s = none := by
  have hsne : s ≠ [] := by intro h0; rw [h0] at hlen; simp at hlen
  have hxsne : xs s ≠ [] := by simp [xs, hsne]
  have hall : ∀ v ∈ xs s, v = c := by
    intro v hv
    rcases List.mem_map.mp hv with ⟨p, hp, rfl⟩
    exact hx p hp
  have hmax : x_max s = c := hall _ (listMax_mem _ hxsne)
  have hmin : x_min s = c := hall _ (listMin_mem _ hxsne)
  have hdiff : x_diff s = 0 := by rw [x_diff, hmax, hmin, sub_self]
  refine ⟨hdiff, ?_⟩
  cases s with
  | nil => exact absurd rfl hsne
  | cons p t =>
      have hhead : normalize_landmark? (p :: t) p = none := by
        simp [normalize_landmark?, div?, hdiff]
      simp [train_feature?, normalize_sample?, List.mapM, List.mapM.loop, hhead]

/-- Claim C4, concrete instance at the all-identical sample. -/
theorem degenerate_sample_division_by_zero_witness :
    x_diff sample_degenerate = 0 ∧ train_feature? 1 sample_degenerate = none :=
  degenerate_sample_division_by_zero 1 0.3 sample_degenerate (by decide)
    (by intro p hp
        simp only [sample_degenerate] at hp
        rw [List.eq_of_mem_replicate hp])

/-- Claim C5: for every 21-landmark sample and handedness flag, the live
classifier's `calc_landmark_list` produces exactly the same 64-length
feature vector as the training-data normalization pipeline. -/
theorem calc_landmark_list_matches_training (h : ℚ) (s : List Landmark)
    (_hlen : s.length = 21) :
    calc_landmark_list h s = train_feature h s :=
  calc_landmark_list_eq_train_feature h s

/-- Claim C5, concrete instance at `sample_ex`. -/
theorem calc_landmark_list_matches_training_witness :
    calc_landmark_list 1 sample_ex = train_feature 1 sample_ex :=
  calc_landmark_list_matches_training 1 sample_ex (by decide)

/-- Claim C6: for every well-formed training sample with exactly 21
landmarks, the feature vector produced by the data-preparation pipeline has
length exactly 64. -/
theorem train_feature_length_eq_64 (h : ℚ) (s : List Landmark)
    (hlen : s.length = 21) :
    (train_feature h s).length = 64 :=
  train_feature_length_aux h s hlen

/-- Claim C6, concrete instance at `sample_ex`. -/
theorem train_feature_length_eq_64_witness :
    (train_feature 1 sample_ex).length = 64 :=
  train_feature_length_eq_64 1 sample_ex (by decide)

/-- Claim C1, counterexample: the feature vector the code builds is NOT the
concatenation of the handedness flag with the 21 normalized (x, y) pairs
flattened with z dropped — on `sample_ex` the code's vector has 64 entries
(z kept), while the z-dropping vector of the claim has 43. -/
theorem train_feature_drops_z_cex :
    train_feature 1 sample_ex ≠ spec_feature_xy 1 sample_ex :=
  ne_of_apply_ne List.length (by decide)

/-- Claim C1, amended: the final feature vector is the concatenation of the
handedness flag with the 21 normalized (x, y, z) triples flattened, length
64: entry 0 is the handedness, entries 3i+1 and 3i+2 hold landmark i's
normalized x and y, and entry 3i+3 holds landmark i's z component carried
through unchanged rather than dropped. -/
theorem train_feature_structure (h : ℚ) (s : List Landmark) (hlen : s.length = 21) :
    (train_feature h s).length = 64 ∧
    (train_feature h s)[0]? = some h ∧
    ∀ i : ℕ, i < 21 →
      (train_feature h s)[3 * i + 1]? =
        (s[i]?).map (fun p => (p.1 - x_min s) / x_diff s) ∧
      (train_feature h s)[3 * i + 2]? =
        (s[i]?).map (fun p => (p.2.1 - y_min s) / y_diff s) ∧
      (train_feature h s)[3 * i + 3]? = (s[i]?).map (fun p => p.2.2) := by
  refine ⟨train_feature_length_aux h s hlen, by simp [train_feature], ?_⟩
  intro i _hi
  refine ⟨?_, ?_, ?_⟩
  · have e : 3 * i + 0 + 1 = 3 * i + 1 := by omega
    rw [← e, train_feature_getElem h s i 0 (by omega)]
    cases s[i]? with
    | none => rfl
    | some p => rfl
  · have e : 3 * i + 1 + 1 = 3 * i + 2 := by omega
    rw [← e, train_feature_getElem h s i 1 (by omega)]
    cases s[i]? with
    | none => rfl
    | some p => rfl
  · have e : 3 * i + 2 + 1 = 3 * i + 3 := by omega
    rw [← e, train_feature_getElem h s i 2 (by omega)]
    cases s[i]? with
    | none => rfl
    | some p => rfl

/-- Claim C1 (amended), concrete instance at `sample_ex`. -/
theorem train_feature_structure_witness :
    (train_feature 1 sample_ex).length = 64 ∧
    (train_feature 1 sample_ex)[0]? = some 1 ∧
    ∀ i : ℕ, i < 21 →
      (train_feature 1 sample_ex)[3 * i + 1]? =
        (sample_ex[i]?).map (fun p => (p.1 - x_min sample_ex) / x_diff sample_ex) ∧
      (train_feature 1 sample_ex)[3 * i + 2]? =
        (sample_ex[i]?).map (fun p => (p.2.1 - y_min sample_ex) / y_diff sample_ex) ∧
      (train_feature 1 sample_ex)[3 * i + 3]? =
        (sample_ex[i]?).map (fun p => p.2.2) :=
  train_feature_structure 1 sample_ex (by decide)

/-- Claim C7: taking the argmax of a sample's row in the one-hot label
matrix produced by `np_utils.to_categorical` recovers that sample's original
class index. -/
theorem to_categorical_argmax_round_trip (labels : List ℕ) (i : ℕ)
    (hi : i < labels.length) :
    argmax ((to_categorical labels).getD i []) = labels.getD i 0 := by
  have hlt : i < (to_categorical labels).length := by
    simpa [to_categorical] using hi
  rw [List.getD_eq_getElem _ _ hlt, List.getD_eq_getElem _ _ hi]
  simp only [to_categorical, List.getElem_map]
  exact argmax_one_hot _ _
    (Nat.lt_succ_of_le (le_listMaxNat _ _ (List.getElem_mem hi)))

/-- Claim C7, concrete instance: labels [3, 0, 5, 2], row 2 decodes to 5. -/
theorem to_categorical_argmax_round_trip_witness :
    argmax ((to_categorical [3, 0, 5, 2]).getD 2 []) = [3, 0, 5, 2].getD 2 0 :=
  to_categorical_argmax_round_trip [3, 0, 5, 2] 2 (by decide)

/-- Claim C9: in an iteration of the live-classifier loop in which landmarks
are found, the predicted class label is overlaid on the frame if and only if
the argmax of the model output is strictly less than 5, and the overlaid
label is never the "other" class. -/
theorem overlay_label_iff_argmax_lt_five (result : List ℚ) :
    ((overlay_label result).isSome ↔ argmax result < 5) ∧
      overlay_label result ≠ some ("other") := by
  constructor
  · by_cases h : argmax result < 5 <;> simp [overlay_label, h]
  · by_cases h : argmax result < 5
    · have h5 : ∀ k, k < 5 → ¬ (class_names.getD k no_label = "other") := by decide
      simp only [overlay_label, if_pos h]
      intro hc
      exact h5 (argmax result) h (Option.some.inj hc)
    · simp [overlay_label, h]

/-- Claim C10: the normalization modifies only the x and y components: every
z entry of the feature vector (position 3i+3 for landmark i) equals the raw
input z component, unrescaled — in both the training pipeline and the live
classifier's `calc_landmark_list`. -/
theorem z_components_unrescaled (h : ℚ) (s : List Landmark) (_hlen : s.length = 21)
    (i : ℕ) (_hi : i < 21) :
    (train_feature h s)[3 * i + 3]? = (s[i]?).map (fun p => p.2.2) ∧
      (calc_landmark_list h s)[3 * i + 3]? = (s[i]?).map (fun p => p.2.2) := by
  have key : (train_feature h s)[3 * i + 3]? = (s[i]?).map (fun p => p.2.2) := by
    have e : 3 * i + 2 + 1 = 3 * i + 3 := by omega
    rw [← e, train_feature_getElem h s i 2 (by omega)]
    cases s[i]? with
    | none => rfl
    | some p => rfl
  exact ⟨key, by rw [calc_landmark_list_eq_train_feature]; exact key⟩

/-- Claim C10, concrete instance at `sample_ex`, landmark 0 (z = 0.5 sits at
entry 3 of the feature vector). -/
theorem z_components_unrescaled_witness :
    (train_feature 1 sample_ex)[3 * 0 + 3]? =
      (sample_ex[0]?).map (fun p => p.2.2) ∧
      (calc_landmark_list 1 sample_ex)[3 * 0 + 3]? =
        (sample_ex[0]?).map (fun p => p.2.2) :=
  z_components_unrescaled 1 sample_ex (by decide) 0 (by decide)

/-- Claim C8, counterexample: the feature vector is NOT invariant under a
uniform positive rescaling of all raw coordinates — doubling every
coordinate of `sample_ex` doubles the raw-copied z entries (entry 3 goes
from 0.5 to 1), so the two feature vectors differ. -/
theorem scale_invariance_cex :
    calc_landmark_list 0 (transform_all 2 0 0 0 sample_ex) ≠
      calc_landmark_list 0 sample_ex := by
  have h1 : (calc_landmark_list 0 (transform_all 2 0 0 0 sample_ex))[3]? =
      some (1 : ℚ) := by
    norm_num [calc_landmark_list, flatten_sample, transform_all, sample_ex,
      List.flatMap_cons]
  have h2 : (calc_landmark_list 0 sample_ex)[3]? = some (0.5 : ℚ) := by
    norm_num [calc_landmark_list, flatten_sample, sample_ex, List.flatMap_cons]
  intro hc
  have h3 := congrArg (fun l => l[3]?) hc
  simp only [h1, h2] at h3
  norm_num at h3

/-- Claim C8, amended: the handedness entry and the normalized x and y
entries are scale-invariant, so the feature vector is unchanged by a uniform
positive rescaling and translation applied to the x and y coordinates with z
left fixed; because the z components are copied into the vector raw, a
transformation that changes z changes the vector. -/
theorem scale_invariance_xy (h a b1 b2 : ℚ) (s : List Landmark)
    (ha : 0 < a) (hlen : s.length = 21) :
    calc_landmark_list h (transform_xy a b1 b2 s) = calc_landmark_list h s := by
  have hsne : s ≠ [] := by intro h0; rw [h0] at hlen; simp at hlen
  have hxsne : xs s ≠ [] := by simp [xs, hsne]
  have hysne : ys s ≠ [] := by simp [ys, hsne]
  have hm1 : Monotone (fun v : ℚ => a * v + b1) := affine_monotone a b1 ha.le
  have hm2 : Monotone (fun v : ℚ => a * v + b2) := affine_monotone a b2 ha.le
  have hxs : xs (transform_xy a b1 b2 s) = (xs s).map (fun v => a * v + b1) := by
    simp only [xs, transform_xy, List.map_map]
    rfl
  have hys : ys (transform_xy a b1 b2 s) = (ys s).map (fun v => a * v + b2) := by
    simp only [ys, transform_xy, List.map_map]
    rfl
  have hxmin : x_min (transform_xy a b1 b2 s) = a * x_min s + b1 := by
    rw [x_min, hxs, listMin_map_mono _ hm1 _ hxsne]
    rfl
  have hxmax : x_max (transform_xy a b1 b2 s) = a * x_max s + b1 := by
    rw [x_max, hxs, listMax_map_mono _ hm1 _ hxsne]
    rfl
  have hymin : y_min (transform_xy a b1 b2 s) = a * y_min s + b2 := by
    rw [y_min, hys, listMin_map_mono _ hm2 _ hysne]
    rfl
  have hymax : y_max (transform_xy a b1 b2 s) = a * y_max s + b2 := by
    rw [y_max, hys, listMax_map_mono _ hm2 _ hysne]
    rfl
  have hmapeq : normalize_sample (transform_xy a b1 b2 s) = normalize_sample s := by
    simp only [normalize_sample, x_diff, y_diff, hxmin, hxmax, hymin, hymax]
    rw [transform_xy, List.map_map]
    apply List.map_congr_left
    intro p _hp
    simp only [Function.comp]
    have hx : (a * p.1 + b1 - (a * x_min s + b1)) /
        (a * x_max s + b1 - (a * x_min s + b1)) =
        (p.1 - x_min s) / (x_max s - x_min s) := by
      have e1 : a * p.1 + b1 - (a * x_min s + b1) = a * (p.1 - x_min s) := by ring
      have e2 : a * x_max s + b1 - (a * x_min s + b1) =
          a * (x_max s - x_min s) := by ring
      rw [e1, e2, mul_div_mul_left _ _ (ne_of_gt ha)]
    have hy : (a * p.2.1 + b2 - (a * y_min s + b2)) /
        (a * y_max s + b2 - (a * y_min s + b2)) =
        (p.2.1 - y_min s) / (y_max s - y_min s) := by
      have e1 : a * p.2.1 + b2 - (a * y_min s + b2) = a * (p.2.1 - y_min s) := by ring
      have e2 : a * y_max s + b2 - (a * y_min s + b2) =
          a * (y_max s - y_min s) := by ring
      rw [e1, e2, mul_div_mul_left _ _ (ne_of_gt ha)]
    rw [hx, hy]
  rw [calc_landmark_list_eq_train_feature, calc_landmark_list_eq_train_feature]
  simp only [train_feature, hmapeq]

/-- Claim C8 (amended), concrete instance: rescaling x and y of `sample_ex`
by 2 and translating by (3, 4) leaves the feature vector unchanged. -/
theorem scale_invariance_xy_witness :
    calc_landmark_list 1 (transform_xy 2 3 4 sample_ex) =
      calc_landmark_list 1 sample_ex :=
  scale_invariance_xy 1 2 3 4 sample_ex (by norm_num) (by decide)
